import Mathlib

/-!
# A shallow embedding of the FFS flash filesystem core (src/src/ffs_priv.h)

This file embeds the data model of the flash filesystem declared in
`src/src/ffs_priv.h`: the layout constants, the on-disk record formats
(`ffs_disk_inode`, `ffs_disk_block`, `ffs_disk_area`) and the in-RAM
object model (`ffs_inode`, `ffs_block`, `ffs_file`).  The repository
under verification ships only the private header; the function bodies
(serialization, file read/write, restore) live in translation units that
are not part of the source tree, so the behaviour of those operations is
modelled from the specification, with each such definition carrying a
doc comment that says so and names the missing code.  Integers are
modelled as `Nat` with explicit `% 2^w` reductions where the C fixed
width matters.
-/

/-! ## Layout constants, verbatim from src/src/ffs_priv.h -/

/-- `#define FFS_ID_NONE 0xffffffff` (ffs_priv.h line 9). -/
def FFS_ID_NONE : Nat := 0xffffffff

/-- `#define FFS_AREA_MAGIC0 0xb98a31e2` (ffs_priv.h line 11). -/
def FFS_AREA_MAGIC0 : Nat := 0xb98a31e2

/-- `#define FFS_AREA_MAGIC1 0x7fb0428c` (ffs_priv.h line 12). -/
def FFS_AREA_MAGIC1 : Nat := 0x7fb0428c

/-- `#define FFS_AREA_MAGIC2 0xace08253` (ffs_priv.h line 13). -/
def FFS_AREA_MAGIC2 : Nat := 0xace08253

/-- `#define FFS_AREA_MAGIC3 0xb185fc8e` (ffs_priv.h line 14). -/
def FFS_AREA_MAGIC3 : Nat := 0xb185fc8e

/-- `#define FFS_BLOCK_MAGIC 0x53ba23b9` (ffs_priv.h line 15). -/
def FFS_BLOCK_MAGIC : Nat := 0x53ba23b9

/-- `#define FFS_INODE_MAGIC 0x925f8bc0` (ffs_priv.h line 16). -/
def FFS_INODE_MAGIC : Nat := 0x925f8bc0

/-- `#define FFS_AREA_ID_SCRATCH 0xffff` (ffs_priv.h line 18). -/
def FFS_AREA_ID_SCRATCH : Nat := 0xffff

/-- `#define FFS_AREA_OFFSET_IS_SCRATCH 23` (ffs_priv.h line 19). -/
def FFS_AREA_OFFSET_IS_SCRATCH : Nat := 23

/-- `#define FFS_SHORT_FILENAME_LEN 16` (ffs_priv.h line 21). -/
def FFS_SHORT_FILENAME_LEN : Nat := 16

/-- `#define FFS_BLOCK_SIZE 512` (ffs_priv.h line 23). -/
def FFS_BLOCK_SIZE : Nat := 512

/-- `#define FFS_HASH_SIZE 256` (ffs_priv.h line 27). -/
def FFS_HASH_SIZE : Nat := 256

/-- `#define FFS_MAX_AREAS 32` (ffs_priv.h line 29). -/
def FFS_MAX_AREAS : Nat := 32

/-- `#define FFS_INODE_F_DELETED 0x01` (ffs_priv.h line 31). -/
def FFS_INODE_F_DELETED : Nat := 0x01

/-- `#define FFS_INODE_F_DUMMY 0x02` (ffs_priv.h line 32). -/
def FFS_INODE_F_DUMMY : Nat := 0x02

/-- `#define FFS_INODE_F_DIRECTORY 0x04` (ffs_priv.h line 33). -/
def FFS_INODE_F_DIRECTORY : Nat := 0x04

/-- `#define FFS_INODE_F_TEST 0x80` (ffs_priv.h line 34). -/
def FFS_INODE_F_TEST : Nat := 0x80

/-- `#define FFS_BLOCK_F_DELETED 0x01` (ffs_priv.h line 36). -/
def FFS_BLOCK_F_DELETED : Nat := 0x01

/-- `#define FFS_BLOCK_MAX_DATA_SZ 2048` (ffs_priv.h line 38). -/
def FFS_BLOCK_MAX_DATA_SZ : Nat := 2048

/-! ## On-disk record structures (struct ffs_disk_block, ffs_disk_inode,
ffs_disk_area from ffs_priv.h).  Field names and widths follow the C
declarations; every field is a `Nat` and the codec below reduces it
modulo its C width when serializing. -/

/-- `struct ffs_disk_block` (ffs_priv.h lines 41-52): fdb_magic,
fdb_id, fdb_seq, fdb_rank, fdb_inode_id are `uint32_t`; reserved16,
fdb_flags, fdb_data_len are `uint16_t`; fdb_ecc is `uint32_t`.
Followed on disk by `fdb_data_len` bytes of data. -/
structure FfsDiskBlock where
  fdb_magic : Nat
  fdb_id : Nat
  fdb_seq : Nat
  fdb_rank : Nat
  fdb_inode_id : Nat
  reserved16 : Nat
  fdb_flags : Nat
  fdb_data_len : Nat
  fdb_ecc : Nat
deriving Repr, DecidableEq

/-- `struct ffs_disk_inode` (ffs_priv.h lines 54-63): fdi_magic,
fdi_id, fdi_seq, fdi_parent_id are `uint32_t`; fdi_flags is
`uint16_t`; fdi_filename_len is `uint8_t`; fdi_ecc is `uint32_t`.
Followed on disk by the filename bytes. -/
structure FfsDiskInode where
  fdi_magic : Nat
  fdi_id : Nat
  fdi_seq : Nat
  fdi_parent_id : Nat
  fdi_flags : Nat
  fdi_filename_len : Nat
  fdi_ecc : Nat
deriving Repr, DecidableEq

/-- `struct ffs_disk_area` (ffs_priv.h lines 65-71): `uint32_t
fds_magic[4]`, `uint32_t fds_length`, `uint16_t reserved16`, `uint8_t
fds_seq`, `uint8_t fds_is_scratch`.  The four magic array slots are
given as separate fields. -/
structure FfsDiskArea where
  fds_magic0 : Nat
  fds_magic1 : Nat
  fds_magic2 : Nat
  fds_magic3 : Nat
  fds_length : Nat
  reserved16 : Nat
  fds_seq : Nat
  fds_is_scratch : Nat
deriving Repr, DecidableEq

/-! ## Byte-level codec for the on-disk records -/

/-- Little-endian serialization of a value into `w` bytes (the value is
reduced modulo `2^(8*w)`, as storing into a `uint32_t`/`uint16_t`/
`uint8_t` field does in C). -/
def leBytes : Nat → Nat → List Nat
  | 0, _ => []
  | w + 1, v => v % 256 :: leBytes w (v / 256)

/-- Modelled from the spec: the record serializers
(`ffs_inode_write_disk`, `ffs_inode_read_disk`, declared at ffs_priv.h
lines 196-201) are not under src/.  Spec section 6 fixes the encoding:
records are packed without padding, all integers little-endian, and the
filename bytes follow the inode header contiguously; the field order
and widths are those of `struct ffs_disk_inode`. -/
def encodeDiskInode (r : FfsDiskInode) (filename : List Nat) : List Nat :=
  leBytes 4 r.fdi_magic ++ leBytes 4 r.fdi_id ++ leBytes 4 r.fdi_seq ++
    leBytes 4 r.fdi_parent_id ++ leBytes 2 r.fdi_flags ++
    leBytes 1 r.fdi_filename_len ++ leBytes 4 r.fdi_ecc ++ filename

/-- Modelled from the spec: the record serializers
(`ffs_block_write_disk`, `ffs_block_read_disk`, declared at ffs_priv.h
lines 220-224) are not under src/.  Spec section 6 fixes the encoding:
records are packed without padding, all integers little-endian, and the
data bytes follow the block header contiguously; the field order and
widths are those of `struct ffs_disk_block`. -/
def encodeDiskBlock (r : FfsDiskBlock) (data : List Nat) : List Nat :=
  leBytes 4 r.fdb_magic ++ leBytes 4 r.fdb_id ++ leBytes 4 r.fdb_seq ++
    leBytes 4 r.fdb_rank ++ leBytes 4 r.fdb_inode_id ++
    leBytes 2 r.reserved16 ++ leBytes 2 r.fdb_flags ++
    leBytes 2 r.fdb_data_len ++ leBytes 4 r.fdb_ecc ++ data

/-- Modelled from the spec: the area-header serializer
(`ffs_area_to_disk`, declared at ffs_priv.h lines 257-258) is not under
src/.  Spec section 3 fixes the header: four 32-bit magic words, a
32-bit length, a 2-byte reserved word, a one-byte seq and a one-byte
is_scratch, packed without padding, little-endian. -/
def encodeDiskArea (a : FfsDiskArea) : List Nat :=
  leBytes 4 a.fds_magic0 ++ leBytes 4 a.fds_magic1 ++ leBytes 4 a.fds_magic2 ++
    leBytes 4 a.fds_magic3 ++ leBytes 4 a.fds_length ++
    leBytes 2 a.reserved16 ++ leBytes 1 a.fds_seq ++ leBytes 1 a.fds_is_scratch

/-- The byte size of the packed disk-block header: the sum of the field
widths of `struct ffs_disk_block` (5 times `uint32_t`, 3 times
`uint16_t`, and the `uint32_t` ecc). -/
def ffsDiskBlockSize : Nat := 4 + 4 + 4 + 4 + 4 + 2 + 2 + 2 + 4

/-- The byte size of the packed disk-inode header: the sum of the field
widths of `struct ffs_disk_inode`. -/
def ffsDiskInodeSize : Nat := 4 + 4 + 4 + 4 + 2 + 1 + 4

/-- The byte size of the packed disk-area header: the sum of the field
widths of `struct ffs_disk_area`. -/
def ffsDiskAreaSize : Nat := 4 + 4 + 4 + 4 + 4 + 2 + 1 + 1

/-- `#define FFS_BLOCK_DATA_LEN (FFS_BLOCK_SIZE - sizeof (struct
ffs_disk_block))` (ffs_priv.h lines 24-25), with the struct size taken
as the packed record size the spec fixes for the on-disk layout. -/
def FFS_BLOCK_DATA_LEN : Nat := FFS_BLOCK_SIZE - ffsDiskBlockSize

/-- A slice of `len` bytes starting at byte offset `off`. -/
def sliceAt (l : List Nat) (off len : Nat) : List Nat :=
  (l.drop off).take len

/-! ## In-RAM object model

`struct ffs_block` (ffs_priv.h lines 85-92) and `struct ffs_inode`
(lines 95-108).  The hash-chain and sibling links of the C structs are
list membership here; the per-object base (id, seq, area, offset) is
not needed by the claims and is omitted from the in-RAM model. -/

/-- The in-RAM data block, `struct ffs_block`: `fb_rank` orders blocks
within their owning inode, `fb_data_len` is the payload length (kept
here as the payload bytes themselves, `fb_data`), and blocks carry the
record seq used to resolve equal-rank collisions. -/
structure FfsBlock where
  fb_rank : Nat
  fb_seq : Nat
  fb_data : List Nat
deriving Repr, DecidableEq

/-- The payload union of `struct ffs_inode` (ffs_priv.h lines 98-101):
`fi_block_list` if the inode is a file, `fi_child_list` if it is a
directory.  The C anonymous union gives the inode exactly one of the
two; the sum type mirrors that.  Children are named by inode id. -/
inductive FfsInodePayload where
  | fileBlocks : List FfsBlock → FfsInodePayload
  | dirChildren : List Nat → FfsInodePayload
deriving Repr, DecidableEq

/-- `struct ffs_inode` (ffs_priv.h lines 95-108): flags, refcnt,
filename length and the fixed `FFS_SHORT_FILENAME_LEN`-byte filename
buffer, parent id, cached data length, and the file/directory payload
union. -/
structure FfsInode where
  fi_flags : Nat
  fi_refcnt : Nat
  fi_filename_len : Nat
  fi_filename : List Nat
  fi_parent_id : Nat
  fi_data_len : Nat
  fi_payload : FfsInodePayload
deriving Repr, DecidableEq

/-- Whether the DIRECTORY flag bit of an inode's `fi_flags` is set. -/
def inodeIsDirectory (i : FfsInode) : Bool :=
  i.fi_flags &&& FFS_INODE_F_DIRECTORY != 0

/-- Which side of the payload union an inode holds. -/
def payloadIsDir : FfsInodePayload → Bool
  | .fileBlocks _ => false
  | .dirChildren _ => true

/-- The discriminator invariant: the payload side agrees with the
DIRECTORY flag bit. -/
def inodeWellFormed (i : FfsInode) : Prop :=
  payloadIsDir i.fi_payload = inodeIsDirectory i

instance (i : FfsInode) : Decidable (inodeWellFormed i) := by
  unfold inodeWellFormed; infer_instance

/-- The concatenated payload bytes of a block chain, in chain order. -/
def blockListData (bs : List FfsBlock) : List Nat :=
  (bs.map FfsBlock.fb_data).flatten

/-- The sum of the per-block data lengths of a chain (the cached
`fi_data_len` of spec invariant 5). -/
def blockListDataLen (bs : List FfsBlock) : Nat :=
  (bs.map (fun b => b.fb_data.length)).sum

/-- Modelled from the spec: `ffs_inode_insert_block` (declared at
ffs_priv.h line 195) is not under src/.  Spec section 4.E: insert into
the block list ordered by rank ascending; equal ranks resolve by seq
descending — the newer block wins and the older is superseded
(dropped from the chain). -/
def ffs_block_list_insert : List FfsBlock → FfsBlock → List FfsBlock
  | [], b => [b]
  | x :: xs, b =>
    if b.fb_rank < x.fb_rank then b :: x :: xs
    else if b.fb_rank = x.fb_rank then
      if x.fb_seq ≤ b.fb_seq then b :: xs else x :: xs
    else x :: ffs_block_list_insert xs b

/-- Modelled from the spec: `ffs_inode_insert_block(inode, block)`
(ffs_priv.h line 195) is not under src/.  Spec section 4.E: inserts the
block into a file inode's block list (rank order) and updates the
cached data length.  A directory inode has no block list to insert
into, so its payload is left unchanged. -/
def ffs_inode_insert_block (i : FfsInode) (b : FfsBlock) : FfsInode :=
  match i.fi_payload with
  | .fileBlocks bs =>
      let bs' := ffs_block_list_insert bs b
      { i with fi_payload := .fileBlocks bs', fi_data_len := blockListDataLen bs' }
  | .dirChildren _ => i

/-- Modelled from the spec: `ffs_inode_add_child(parent, child)`
(ffs_priv.h line 206) is not under src/.  Spec section 4.E: links the
child into the parent directory's child list.  A file inode has no
child list, so its payload is left unchanged. -/
def ffs_inode_add_child (parent : FfsInode) (childId : Nat) : FfsInode :=
  match parent.fi_payload with
  | .dirChildren cs => { parent with fi_payload := .dirChildren (childId :: cs) }
  | .fileBlocks _ => parent

/-- Modelled from the spec: `ffs_file_new` (ffs_priv.h lines 242-243)
is not under src/.  Spec sections 4.E and 4.I: a fresh inode is
allocated with refcnt 1, flags carrying the DIRECTORY bit exactly when
`is_dir`, the filename copied into the 16-byte buffer, and an empty
block list (file) or child list (directory). -/
def ffs_file_new_inode (parentId : Nat) (fn : List Nat) (is_dir : Bool) :
    FfsInode where
  fi_flags := if is_dir then FFS_INODE_F_DIRECTORY else 0
  fi_refcnt := 1
  fi_filename_len := fn.length
  fi_filename := fn.take FFS_SHORT_FILENAME_LEN
  fi_parent_id := parentId
  fi_data_len := 0
  fi_payload := if is_dir then .dirChildren [] else .fileBlocks []

/-- Modelled from the spec: `ffs_inode_from_disk` (ffs_priv.h lines
191-193) is not under src/.  It builds the in-RAM inode from a decoded
disk record.  The in-RAM filename buffer is `FFS_SHORT_FILENAME_LEN`
bytes (ffs_priv.h line 107), so a record whose filename does not fit is
rejected (spec section 7: INVALID covers an oversize filename); the
payload starts empty on the side selected by the DIRECTORY flag, and
blocks and children are attached later during restore. -/
def ffs_inode_from_disk (d : FfsDiskInode) (filename : List Nat) :
    Option FfsInode :=
  if d.fdi_filename_len ≤ FFS_SHORT_FILENAME_LEN then
    some
      { fi_flags := d.fdi_flags
        fi_refcnt := 1
        fi_filename_len := d.fdi_filename_len
        fi_filename := filename.take d.fdi_filename_len
        fi_parent_id := d.fdi_parent_id
        fi_data_len := 0
        fi_payload :=
          if d.fdi_flags &&& FFS_INODE_F_DIRECTORY != 0 then .dirChildren []
          else .fileBlocks [] }
  else none

/-- The `fi_refcnt` field is a `uint8_t` (ffs_priv.h line 106);
incrementing it (done by `ffs_file_open`, whose body is not under
src/) is C unsigned-char arithmetic and therefore wraps modulo 256. -/
def ffs_inode_inc_refcnt (r : Nat) : Nat := (r + 1) % 256

/-! ## File handles and the write/read path

`struct ffs_file` (ffs_priv.h lines 110-114) pairs an inode with a byte
offset.  The model inlines the inode's block chain into the handle;
`ffs_write_to_file`, `ffs_file_seek` and `ffs_inode_read` (declared at
ffs_priv.h lines 264, 240 and 214-215) have no bodies under src/, so
their behaviour is modelled from spec sections 4.E and 4.I. -/

/-- A file handle: the open inode's block chain plus the read/write
offset `ff_offset`. -/
structure FfsFile where
  ff_blocks : List FfsBlock
  ff_offset : Nat
deriving Repr, DecidableEq

/-- A freshly created, empty file with the handle at offset 0. -/
def ffs_file_open_new : FfsFile := ⟨[], 0⟩

/-- Modelled from the spec: `ffs_file_seek` (ffs_priv.h line 240) is
not under src/.  Spec section 4.I: seek updates `file.offset`. -/
def ffs_file_seek (f : FfsFile) (offset : Nat) : FfsFile :=
  { f with ff_offset := offset }

/-- Data is split into blocks of at most `FFS_BLOCK_DATA_LEN` payload
bytes (spec section 4.I: write allocates one or more blocks sized up to
FFS_BLOCK_DATA_LEN payload). -/
def splitBlocks : List Nat → List (List Nat)
  | [] => []
  | x :: xs =>
      (x :: xs).take FFS_BLOCK_DATA_LEN ::
        splitBlocks ((x :: xs).drop FFS_BLOCK_DATA_LEN)
termination_by l => l.length
decreasing_by
  simp [List.length_drop, FFS_BLOCK_DATA_LEN, ffsDiskBlockSize, FFS_BLOCK_SIZE]
  omega

/-- One past the largest rank in a block chain (0 for an empty chain):
the first rank available at the file tail. -/
def ffs_block_next_rank (bs : List FfsBlock) : Nat :=
  bs.foldl (fun acc b => max acc (b.fb_rank + 1)) 0

/-- Inserts the given data chunks as fresh blocks with consecutive
ranks starting at `r`, each through the rank-ordered chain insert. -/
def ffs_block_append_chunks (bs : List FfsBlock) (r : Nat) :
    List (List Nat) → List FfsBlock
  | [] => bs
  | c :: cs =>
      ffs_block_append_chunks (ffs_block_list_insert bs ⟨r, 0, c⟩) (r + 1) cs

/-- Modelled from the spec: `ffs_write_to_file` (ffs_priv.h line 264)
is not under src/.  Spec section 4.I: a write allocates one or more
blocks of at most `FFS_BLOCK_DATA_LEN` payload bytes, each with
monotone rank assigned from the current file tail, and advances the
handle's offset past the written bytes.  This models the append-at-tail
path, which is the path every write of a freshly opened handle takes
(each write leaves the offset at the file tail). -/
def ffs_write_to_file (f : FfsFile) (data : List Nat) : FfsFile :=
  { ff_blocks :=
      ffs_block_append_chunks f.ff_blocks (ffs_block_next_rank f.ff_blocks)
        (splitBlocks data)
    ff_offset := f.ff_offset + data.length }

/-- Modelled from the spec: `ffs_inode_read` (ffs_priv.h lines 214-215)
is not under src/.  Spec section 4.E: seek walks the block chain
accumulating data lengths until the cursor falls within a block, then
read proceeds sequentially across blocks up to the lesser of the
remaining file length and the requested length. -/
def ffs_inode_read : List FfsBlock → Nat → Nat → List Nat
  | [], _, _ => []
  | b :: bs, off, len =>
    if off < b.fb_data.length then
      let part := (b.fb_data.drop off).take len
      part ++ ffs_inode_read bs 0 (len - part.length)
    else ffs_inode_read bs (off - b.fb_data.length) len

/-- `ffs_read` on a handle delegates to the inode read at the handle's
offset (spec section 4.I). -/
def ffs_file_read (f : FfsFile) (len : Nat) : List Nat :=
  ffs_inode_read f.ff_blocks f.ff_offset len

theorem leBytes_length (w v : Nat) : (leBytes w v).length = w := by
  induction w generalizing v with
  | zero => rfl
  | succ n ih => simp [leBytes, ih]

theorem sliceAt_head (w v len : Nat) (rest : List Nat) (h : len = w) :
    sliceAt (leBytes w v ++ rest) 0 len = leBytes w v := by
  subst h
  simp [sliceAt]
  exact List.take_left' (leBytes_length _ v)

theorem sliceAt_peel (w v off len : Nat) (rest : List Nat) :
    sliceAt (leBytes w v ++ rest) (w + off) len = sliceAt rest off len := by
  have h1 : List.drop (w + off) (leBytes w v) = [] :=
    List.drop_eq_nil_of_le (by rw [leBytes_length]; omega)
  simp [sliceAt, List.drop_append_eq_append_drop, h1, leBytes_length,
    Nat.add_sub_cancel_left]

theorem drop_peel (w v off : Nat) (rest : List Nat) :
    (leBytes w v ++ rest).drop (w + off) = rest.drop off := by
  have h1 : List.drop (w + off) (leBytes w v) = [] :=
    List.drop_eq_nil_of_le (by rw [leBytes_length]; omega)
  simp [List.drop_append_eq_append_drop, h1, leBytes_length,
    Nat.add_sub_cancel_left]

/-! ### Byte offsets of every disk-inode header field in the packed
encoding -/

theorem fdiSlice_magic (r : FfsDiskInode) (fn : List Nat) :
    sliceAt (encodeDiskInode r fn) 0 4 = leBytes 4 r.fdi_magic := by
  simp only [encodeDiskInode, List.append_assoc]
  exact sliceAt_head 4 _ 4 _ rfl

theorem fdiSlice_id (r : FfsDiskInode) (fn : List Nat) :
    sliceAt (encodeDiskInode r fn) 4 4 = leBytes 4 r.fdi_id := by
  show sliceAt (encodeDiskInode r fn) (4 + 0) 4 = leBytes 4 r.fdi_id
  simp only [encodeDiskInode, List.append_assoc]
  rw [sliceAt_peel]
  exact sliceAt_head 4 _ 4 _ rfl

theorem fdiSlice_seq (r : FfsDiskInode) (fn : List Nat) :
    sliceAt (encodeDiskInode r fn) 8 4 = leBytes 4 r.fdi_seq := by
  show sliceAt (encodeDiskInode r fn) (4 + (4 + 0)) 4 = leBytes 4 r.fdi_seq
  simp only [encodeDiskInode, List.append_assoc]
  rw [sliceAt_peel, sliceAt_peel]
  exact sliceAt_head 4 _ 4 _ rfl

theorem fdiSlice_parent_id (r : FfsDiskInode) (fn : List Nat) :
    sliceAt (encodeDiskInode r fn) 12 4 = leBytes 4 r.fdi_parent_id := by
  show sliceAt (encodeDiskInode r fn) (4 + (4 + (4 + 0))) 4 =
    leBytes 4 r.fdi_parent_id
  simp only [encodeDiskInode, List.append_assoc]
  rw [sliceAt_peel, sliceAt_peel, sliceAt_peel]
  exact sliceAt_head 4 _ 4 _ rfl

theorem fdiSlice_flags (r : FfsDiskInode) (fn : List Nat) :
    sliceAt (encodeDiskInode r fn) 16 2 = leBytes 2 r.fdi_flags := by
  show sliceAt (encodeDiskInode r fn) (4 + (4 + (4 + (4 + 0)))) 2 =
    leBytes 2 r.fdi_flags
  simp only [encodeDiskInode, List.append_assoc]
  rw [sliceAt_peel, sliceAt_peel, sliceAt_peel, sliceAt_peel]
  exact sliceAt_head 2 _ 2 _ rfl

theorem fdiSlice_filename_len (r : FfsDiskInode) (fn : List Nat) :
    sliceAt (encodeDiskInode r fn) 18 1 = leBytes 1 r.fdi_filename_len := by
  show sliceAt (encodeDiskInode r fn) (4 + (4 + (4 + (4 + (2 + 0))))) 1 =
    leBytes 1 r.fdi_filename_len
  simp only [encodeDiskInode, List.append_assoc]
  rw [sliceAt_peel, sliceAt_peel, sliceAt_peel, sliceAt_peel, sliceAt_peel]
  exact sliceAt_head 1 _ 1 _ rfl

theorem fdiSlice_ecc (r : FfsDiskInode) (fn : List Nat) :
    sliceAt (encodeDiskInode r fn) 19 4 = leBytes 4 r.fdi_ecc := by
  show sliceAt (encodeDiskInode r fn) (4 + (4 + (4 + (4 + (2 + (1 + 0)))))) 4 =
    leBytes 4 r.fdi_ecc
  simp only [encodeDiskInode, List.append_assoc]
  rw [sliceAt_peel, sliceAt_peel, sliceAt_peel, sliceAt_peel, sliceAt_peel,
    sliceAt_peel]
  exact sliceAt_head 4 _ 4 _ rfl

theorem fdiDrop_filename (r : FfsDiskInode) (fn : List Nat) :
    (encodeDiskInode r fn).drop 23 = fn := by
  show (encodeDiskInode r fn).drop (4 + (4 + (4 + (4 + (2 + (1 + (4 + 0))))))) = fn
  simp only [encodeDiskInode, List.append_assoc]
  rw [drop_peel, drop_peel, drop_peel, drop_peel, drop_peel, drop_peel, drop_peel]
  rfl

theorem encodeDiskInode_length (r : FfsDiskInode) (fn : List Nat) :
    (encodeDiskInode r fn).length = ffsDiskInodeSize + fn.length := by
  simp [encodeDiskInode, leBytes_length, ffsDiskInodeSize]
  omega

/-! ### Byte offsets of every disk-block header field in the packed
encoding -/

theorem fdbSlice_magic (r : FfsDiskBlock) (data : List Nat) :
    sliceAt (encodeDiskBlock r data) 0 4 = leBytes 4 r.fdb_magic := by
  simp only [encodeDiskBlock, List.append_assoc]
  exact sliceAt_head 4 _ 4 _ rfl

theorem fdbSlice_id (r : FfsDiskBlock) (data : List Nat) :
    sliceAt (encodeDiskBlock r data) 4 4 = leBytes 4 r.fdb_id := by
  show sliceAt (encodeDiskBlock r data) (4 + 0) 4 = leBytes 4 r.fdb_id
  simp only [encodeDiskBlock, List.append_assoc]
  rw [sliceAt_peel]
  exact sliceAt_head 4 _ 4 _ rfl

theorem fdbSlice_seq (r : FfsDiskBlock) (data : List Nat) :
    sliceAt (encodeDiskBlock r data) 8 4 = leBytes 4 r.fdb_seq := by
  show sliceAt (encodeDiskBlock r data) (4 + (4 + 0)) 4 = leBytes 4 r.fdb_seq
  simp only [encodeDiskBlock, List.append_assoc]
  rw [sliceAt_peel, sliceAt_peel]
  exact sliceAt_head 4 _ 4 _ rfl

theorem fdbSlice_rank (r : FfsDiskBlock) (data : List Nat) :
    sliceAt (encodeDiskBlock r data) 12 4 = leBytes 4 r.fdb_rank := by
  show sliceAt (encodeDiskBlock r data) (4 + (4 + (4 + 0))) 4 =
    leBytes 4 r.fdb_rank
  simp only [encodeDiskBlock, List.append_assoc]
  rw [sliceAt_peel, sliceAt_peel, sliceAt_peel]
  exact sliceAt_head 4 _ 4 _ rfl

theorem fdbSlice_inode_id (r : FfsDiskBlock) (data : List Nat) :
    sliceAt (encodeDiskBlock r data) 16 4 = leBytes 4 r.fdb_inode_id := by
  show sliceAt (encodeDiskBlock r data) (4 + (4 + (4 + (4 + 0)))) 4 =
    leBytes 4 r.fdb_inode_id
  simp only [encodeDiskBlock, List.append_assoc]
  rw [sliceAt_peel, sliceAt_peel, sliceAt_peel, sliceAt_peel]
  exact sliceAt_head 4 _ 4 _ rfl

theorem fdbSlice_reserved16 (r : FfsDiskBlock) (data : List Nat) :
    sliceAt (encodeDiskBlock r data) 20 2 = leBytes 2 r.reserved16 := by
  show sliceAt (encodeDiskBlock r data) (4 + (4 + (4 + (4 + (4 + 0))))) 2 =
    leBytes 2 r.reserved16
  simp only [encodeDiskBlock, List.append_assoc]
  rw [sliceAt_peel, sliceAt_peel, sliceAt_peel, sliceAt_peel, sliceAt_peel]
  exact sliceAt_head 2 _ 2 _ rfl

theorem fdbSlice_flags (r : FfsDiskBlock) (data : List Nat) :
    sliceAt (encodeDiskBlock r data) 22 2 = leBytes 2 r.fdb_flags := by
  show sliceAt (encodeDiskBlock r data) (4 + (4 + (4 + (4 + (4 + (2 + 0)))))) 2 =
    leBytes 2 r.fdb_flags
  simp only [encodeDiskBlock, List.append_assoc]
  rw [sliceAt_peel, sliceAt_peel, sliceAt_peel, sliceAt_peel, sliceAt_peel,
    sliceAt_peel]
  exact sliceAt_head 2 _ 2 _ rfl

theorem fdbSlice_data_len (r : FfsDiskBlock) (data : List Nat) :
    sliceAt (encodeDiskBlock r data) 24 2 = leBytes 2 r.fdb_data_len := by
  show sliceAt (encodeDiskBlock r data)
    (4 + (4 + (4 + (4 + (4 + (2 + (2 + 0))))))) 2 = leBytes 2 r.fdb_data_len
  simp only [encodeDiskBlock, List.append_assoc]
  rw [sliceAt_peel, sliceAt_peel, sliceAt_peel, sliceAt_peel, sliceAt_peel,
    sliceAt_peel, sliceAt_peel]
  exact sliceAt_head 2 _ 2 _ rfl

theorem fdbSlice_ecc (r : FfsDiskBlock) (data : List Nat) :
    sliceAt (encodeDiskBlock r data) 26 4 = leBytes 4 r.fdb_ecc := by
  show sliceAt (encodeDiskBlock r data)
    (4 + (4 + (4 + (4 + (4 + (2 + (2 + (2 + 0)))))))) 4 = leBytes 4 r.fdb_ecc
  simp only [encodeDiskBlock, List.append_assoc]
  rw [sliceAt_peel, sliceAt_peel, sliceAt_peel, sliceAt_peel, sliceAt_peel,
    sliceAt_peel, sliceAt_peel, sliceAt_peel]
  exact sliceAt_head 4 _ 4 _ rfl

theorem fdbDrop_data (r : FfsDiskBlock) (data : List Nat) :
    (encodeDiskBlock r data).drop 30 = data := by
  show (encodeDiskBlock r data).drop
    (4 + (4 + (4 + (4 + (4 + (2 + (2 + (2 + (4 + 0))))))))) = data
  simp only [encodeDiskBlock, List.append_assoc]
  rw [drop_peel, drop_peel, drop_peel, drop_peel, drop_peel, drop_peel,
    drop_peel, drop_peel, drop_peel]
  rfl

theorem encodeDiskBlock_length (r : FfsDiskBlock) (data : List Nat) :
    (encodeDiskBlock r data).length = ffsDiskBlockSize + data.length := by
  simp [encodeDiskBlock, leBytes_length, ffsDiskBlockSize]
  omega

/-! ### Byte offsets in the packed disk-area header -/

theorem fdsSlice_is_scratch (a : FfsDiskArea) :
    sliceAt (encodeDiskArea a) 23 1 = leBytes 1 a.fds_is_scratch := by
  show sliceAt (encodeDiskArea a)
    (4 + (4 + (4 + (4 + (4 + (2 + (1 + 0))))))) 1 = leBytes 1 a.fds_is_scratch
  simp only [encodeDiskArea, List.append_assoc]
  rw [sliceAt_peel, sliceAt_peel, sliceAt_peel, sliceAt_peel, sliceAt_peel,
    sliceAt_peel, sliceAt_peel]
  exact sliceAt_head 1 _ 1 _ rfl

theorem fdsSlice_seq (a : FfsDiskArea) :
    sliceAt (encodeDiskArea a) 22 1 = leBytes 1 a.fds_seq := by
  show sliceAt (encodeDiskArea a)
    (4 + (4 + (4 + (4 + (4 + (2 + 0)))))) 1 = leBytes 1 a.fds_seq
  simp only [encodeDiskArea, List.append_assoc]
  rw [sliceAt_peel, sliceAt_peel, sliceAt_peel, sliceAt_peel, sliceAt_peel,
    sliceAt_peel]
  exact sliceAt_head 1 _ 1 _ rfl

theorem encodeDiskArea_length (a : FfsDiskArea) :
    (encodeDiskArea a).length = ffsDiskAreaSize := by
  simp [encodeDiskArea, leBytes_length, ffsDiskAreaSize]

/-! ### The write path: chunking, rank-ordered insertion -/

theorem splitBlocks_flatten (l : List Nat) : (splitBlocks l).flatten = l := by
  induction l using splitBlocks.induct with
  | case1 => simp [splitBlocks]
  | case2 x xs ih =>
      rw [splitBlocks]
      simp only [List.flatten_cons, ih]
      exact List.take_append_drop _ _

theorem blockListData_append (bs cs : List FfsBlock) :
    blockListData (bs ++ cs) = blockListData bs ++ blockListData cs := by
  simp [blockListData]

theorem ffs_block_list_insert_tail (bs : List FfsBlock) (b : FfsBlock)
    (h : ∀ x ∈ bs, x.fb_rank < b.fb_rank) :
    ffs_block_list_insert bs b = bs ++ [b] := by
  induction bs with
  | nil => rfl
  | cons x xs ih =>
      have hx : x.fb_rank < b.fb_rank := h x (by simp)
      rw [ffs_block_list_insert]
      rw [if_neg (by omega), if_neg (by omega)]
      rw [ih (fun y hy => h y (by simp [hy]))]
      rfl

theorem foldl_max_rank_le (bs : List FfsBlock) (acc : Nat) :
    acc ≤ bs.foldl (fun a b => max a (b.fb_rank + 1)) acc ∧
    ∀ x ∈ bs, x.fb_rank < bs.foldl (fun a b => max a (b.fb_rank + 1)) acc := by
  induction bs generalizing acc with
  | nil => simp
  | cons y ys ih =>
      constructor
      · calc acc ≤ max acc (y.fb_rank + 1) := le_max_left _ _
          _ ≤ _ := (ih (max acc (y.fb_rank + 1))).1
      · intro x hx
        rcases List.mem_cons.mp hx with hxy | hxs
        · subst hxy
          have h1 : x.fb_rank + 1 ≤ max acc (x.fb_rank + 1) := le_max_right _ _
          have h2 := (ih (max acc (x.fb_rank + 1))).1
          simp only [List.foldl_cons]
          omega
        · exact (ih (max acc (y.fb_rank + 1))).2 x hxs

theorem rank_lt_next_rank (bs : List FfsBlock) :
    ∀ x ∈ bs, x.fb_rank < ffs_block_next_rank bs :=
  (foldl_max_rank_le bs 0).2

theorem ffs_block_append_chunks_spec (cs : List (List Nat))
    (bs : List FfsBlock) (r : Nat) (h : ∀ x ∈ bs, x.fb_rank < r) :
    blockListData (ffs_block_append_chunks bs r cs)
        = blockListData bs ++ cs.flatten ∧
    ∀ x ∈ ffs_block_append_chunks bs r cs, x.fb_rank < r + cs.length := by
  induction cs generalizing bs r with
  | nil => exact ⟨by simp [ffs_block_append_chunks], by simpa using h⟩
  | cons c cs ih =>
      rw [ffs_block_append_chunks]
      rw [ffs_block_list_insert_tail bs ⟨r, 0, c⟩ h]
      have h' : ∀ x ∈ bs ++ [(⟨r, 0, c⟩ : FfsBlock)], x.fb_rank < r + 1 := by
        intro x hx
        rcases List.mem_append.mp hx with hxb | hxs
        · exact Nat.lt_trans (h x hxb) (Nat.lt_succ_self r)
        · simp only [List.mem_singleton] at hxs
          subst hxs
          simp
      obtain ⟨hdata, hrank⟩ := ih (bs ++ [⟨r, 0, c⟩]) (r + 1) h'
      constructor
      · rw [hdata, blockListData_append]
        simp [blockListData]
      · intro x hx
        have := hrank x hx
        simp only [List.length_cons]
        omega

theorem ffs_write_to_file_data (f : FfsFile) (data : List Nat) :
    blockListData (ffs_write_to_file f data).ff_blocks
      = blockListData f.ff_blocks ++ data := by
  unfold ffs_write_to_file
  have h := ffs_block_append_chunks_spec (splitBlocks data) f.ff_blocks
    (ffs_block_next_rank f.ff_blocks) (rank_lt_next_rank f.ff_blocks)
  rw [h.1, splitBlocks_flatten]

theorem writes_fold_data (ws : List (List Nat)) (f : FfsFile) :
    blockListData ((ws.foldl ffs_write_to_file f).ff_blocks)
      = blockListData f.ff_blocks ++ ws.flatten := by
  induction ws generalizing f with
  | nil => simp
  | cons w ws ih =>
      simp only [List.foldl_cons, List.flatten_cons]
      rw [ih (ffs_write_to_file f w), ffs_write_to_file_data,
        List.append_assoc]

/-! ### The read path -/

theorem ffs_inode_read_zero (bs : List FfsBlock) (len : Nat) :
    ffs_inode_read bs 0 len = (blockListData bs).take len := by
  induction bs generalizing len with
  | nil => simp [ffs_inode_read, blockListData]
  | cons b bs ih =>
      rw [ffs_inode_read]
      by_cases hb : 0 < b.fb_data.length
      · rw [if_pos hb]
        simp only [List.drop_zero]
        have hdata : blockListData (b :: bs)
            = b.fb_data ++ blockListData bs := by
          simp [blockListData]
        rw [hdata, List.take_append_eq_append_take, ih]
        have hlen : (b.fb_data.take len).length = min len b.fb_data.length :=
          List.length_take _ _
        rcases Nat.le_total len b.fb_data.length with hle | hge
        · have h1 : len - (b.fb_data.take len).length = 0 := by omega
          have h2 : len - b.fb_data.length = 0 := by omega
          rw [h1, h2]
        · have h1 : len - (b.fb_data.take len).length
              = len - b.fb_data.length := by omega
          rw [h1]
      · rw [if_neg hb]
        have hnil : b.fb_data = [] := List.length_eq_zero.mp (by omega)
        simp [blockListData, hnil, ih]

/-! ## Claim theorems -/

/-- C1: the on-disk records are packed without padding: in the disk
inode record the ecc field immediately follows filename_len (which sits
at byte offset 18, so ecc occupies offsets 19..22), and in the disk
block record the ecc field immediately follows data_len (which sits at
byte offsets 24..25, so ecc occupies offsets 26..29); the header sizes
are exactly the sums of the field widths (23 and 30 bytes), so the
encoded fields occupy consecutive byte offsets with no padding bytes
between them. -/
theorem ffs_c1_packed_ecc (r : FfsDiskInode) (b : FfsDiskBlock)
    (fn data : List Nat) :
    sliceAt (encodeDiskInode r fn) 18 1 = leBytes 1 r.fdi_filename_len ∧
    sliceAt (encodeDiskInode r fn) 19 4 = leBytes 4 r.fdi_ecc ∧
    sliceAt (encodeDiskBlock b data) 24 2 = leBytes 2 b.fdb_data_len ∧
    sliceAt (encodeDiskBlock b data) 26 4 = leBytes 4 b.fdb_ecc ∧
    ffsDiskInodeSize = 23 ∧ ffsDiskBlockSize = 30 ∧
    (encodeDiskInode r fn).length = ffsDiskInodeSize + fn.length ∧
    (encodeDiskBlock b data).length = ffsDiskBlockSize + data.length :=
  ⟨fdiSlice_filename_len r fn, fdiSlice_ecc r fn, fdbSlice_data_len b data,
    fdbSlice_ecc b data, rfl, rfl, encodeDiskInode_length r fn,
    encodeDiskBlock_length b data⟩

/-- C3: the is_scratch byte of the disk area header sits at fixed byte
offset 23: the header is four 32-bit magic words, a 32-bit length, a
2-byte reserved word, a one-byte seq, then the one-byte is_scratch, and
`FFS_AREA_OFFSET_IS_SCRATCH` equals both the literal 23 and the byte
offset of the `fds_is_scratch` field (the sum of the widths of all the
fields before it). -/
theorem ffs_c3_is_scratch_offset (a : FfsDiskArea) :
    FFS_AREA_OFFSET_IS_SCRATCH = 23 ∧
    FFS_AREA_OFFSET_IS_SCRATCH = 4 + 4 + 4 + 4 + 4 + 2 + 1 ∧
    (encodeDiskArea a).length = 24 ∧
    sliceAt (encodeDiskArea a) FFS_AREA_OFFSET_IS_SCRATCH 1
      = leBytes 1 a.fds_is_scratch := by
  refine ⟨rfl, by decide, ?_, ?_⟩
  · rw [encodeDiskArea_length]; rfl
  · show sliceAt (encodeDiskArea a) 23 1 = leBytes 1 a.fds_is_scratch
    exact fdsSlice_is_scratch a

/-- C4: the disk inode record is {magic, id, seq, parent_id,
flags(u16), filename_len(u8), ecc(u32)} followed by filename_len bytes
of filename, and the disk block record is {magic, id, seq, rank,
inode_id, reserved16, flags(u16), data_len(u16), ecc(u32)} followed by
data_len bytes of data, in exactly that order and with exactly those
field widths: each field is recovered from the encoded bytes at the
offset that order fixes. -/
theorem ffs_c4_record_layout (r : FfsDiskInode) (b : FfsDiskBlock)
    (fn data : List Nat) (hfn : fn.length = r.fdi_filename_len)
    (hdata : data.length = b.fdb_data_len) :
    (encodeDiskInode r fn).length = ffsDiskInodeSize + r.fdi_filename_len ∧
    (encodeDiskBlock b data).length = ffsDiskBlockSize + b.fdb_data_len ∧
    sliceAt (encodeDiskInode r fn) 0 4 = leBytes 4 r.fdi_magic ∧
    sliceAt (encodeDiskInode r fn) 4 4 = leBytes 4 r.fdi_id ∧
    sliceAt (encodeDiskInode r fn) 8 4 = leBytes 4 r.fdi_seq ∧
    sliceAt (encodeDiskInode r fn) 12 4 = leBytes 4 r.fdi_parent_id ∧
    sliceAt (encodeDiskInode r fn) 16 2 = leBytes 2 r.fdi_flags ∧
    sliceAt (encodeDiskInode r fn) 18 1 = leBytes 1 r.fdi_filename_len ∧
    sliceAt (encodeDiskInode r fn) 19 4 = leBytes 4 r.fdi_ecc ∧
    (encodeDiskInode r fn).drop 23 = fn ∧
    sliceAt (encodeDiskBlock b data) 0 4 = leBytes 4 b.fdb_magic ∧
    sliceAt (encodeDiskBlock b data) 4 4 = leBytes 4 b.fdb_id ∧
    sliceAt (encodeDiskBlock b data) 8 4 = leBytes 4 b.fdb_seq ∧
    sliceAt (encodeDiskBlock b data) 12 4 = leBytes 4 b.fdb_rank ∧
    sliceAt (encodeDiskBlock b data) 16 4 = leBytes 4 b.fdb_inode_id ∧
    sliceAt (encodeDiskBlock b data) 20 2 = leBytes 2 b.reserved16 ∧
    sliceAt (encodeDiskBlock b data) 22 2 = leBytes 2 b.fdb_flags ∧
    sliceAt (encodeDiskBlock b data) 24 2 = leBytes 2 b.fdb_data_len ∧
    sliceAt (encodeDiskBlock b data) 26 4 = leBytes 4 b.fdb_ecc ∧
    (encodeDiskBlock b data).drop 30 = data := by
  refine ⟨?_, ?_, fdiSlice_magic r fn, fdiSlice_id r fn, fdiSlice_seq r fn,
    fdiSlice_parent_id r fn, fdiSlice_flags r fn, fdiSlice_filename_len r fn,
    fdiSlice_ecc r fn, fdiDrop_filename r fn, fdbSlice_magic b data,
    fdbSlice_id b data, fdbSlice_seq b data, fdbSlice_rank b data,
    fdbSlice_inode_id b data, fdbSlice_reserved16 b data,
    fdbSlice_flags b data, fdbSlice_data_len b data, fdbSlice_ecc b data,
    fdbDrop_data b data⟩
  · rw [encodeDiskInode_length, hfn]
  · rw [encodeDiskBlock_length, hdata]

/-- C4 witness: the layout theorem instantiated at a concrete inode
record with a 3-byte filename and a concrete block record with 2 bytes
of data. -/
theorem ffs_c4_record_layout_witness :
    (encodeDiskInode ⟨0x925f8bc0, 1, 0, 0xffffffff, 4, 3, 0⟩
        [97, 98, 99]).length
      = ffsDiskInodeSize + 3 ∧
    (encodeDiskBlock ⟨0x53ba23b9, 2, 0, 0, 1, 0, 0, 2, 0⟩
        [1, 2]).length
      = ffsDiskBlockSize + 2 :=
  ⟨(ffs_c4_record_layout ⟨0x925f8bc0, 1, 0, 0xffffffff, 4, 3, 0⟩
      ⟨0x53ba23b9, 2, 0, 0, 1, 0, 0, 2, 0⟩ [97, 98, 99] [1, 2]
      (by decide) (by decide)).1,
    (ffs_c4_record_layout ⟨0x925f8bc0, 1, 0, 0xffffffff, 4, 3, 0⟩
      ⟨0x53ba23b9, 2, 0, 0, 1, 0, 0, 2, 0⟩ [97, 98, 99] [1, 2]
      (by decide) (by decide)).2.1⟩

/-- C5: the layout constants and magic values equal the values the spec
fixes: area magics {0xb98a31e2, 0x7fb0428c, 0xace08253, 0xb185fc8e},
block magic 0x53ba23b9, inode magic 0x925f8bc0, BLOCK_SIZE 512,
BLOCK_DATA_LEN = 512 minus the disk block header size (both as defined
and as the length of an encoded header), SHORT_FILENAME_LEN 16,
HASH_SIZE 256, MAX_AREAS 32, BLOCK_MAX_DATA_SZ 2048. -/
theorem ffs_c5_layout_constants :
    FFS_AREA_MAGIC0 = 0xb98a31e2 ∧ FFS_AREA_MAGIC1 = 0x7fb0428c ∧
    FFS_AREA_MAGIC2 = 0xace08253 ∧ FFS_AREA_MAGIC3 = 0xb185fc8e ∧
    FFS_BLOCK_MAGIC = 0x53ba23b9 ∧ FFS_INODE_MAGIC = 0x925f8bc0 ∧
    FFS_BLOCK_SIZE = 512 ∧
    FFS_BLOCK_DATA_LEN = FFS_BLOCK_SIZE - ffsDiskBlockSize ∧
    (∀ b : FfsDiskBlock,
      FFS_BLOCK_DATA_LEN = FFS_BLOCK_SIZE - (encodeDiskBlock b []).length) ∧
    FFS_SHORT_FILENAME_LEN = 16 ∧ FFS_HASH_SIZE = 256 ∧
    FFS_MAX_AREAS = 32 ∧ FFS_BLOCK_MAX_DATA_SZ = 2048 := by
  refine ⟨rfl, rfl, rfl, rfl, rfl, rfl, rfl, rfl, ?_, rfl, rfl, rfl, rfl⟩
  intro b
  rw [encodeDiskBlock_length]
  rfl

/-- C6: the inode flag bits are DELETED = 0x01, DUMMY = 0x02,
DIRECTORY = 0x04 and TEST = 0x80, and the block flag bit
DELETED = 0x01; the four inode bits are pairwise distinct single-bit
masks. -/
theorem ffs_c6_flag_bits :
    FFS_INODE_F_DELETED = 0x01 ∧ FFS_INODE_F_DUMMY = 0x02 ∧
    FFS_INODE_F_DIRECTORY = 0x04 ∧ FFS_INODE_F_TEST = 0x80 ∧
    FFS_BLOCK_F_DELETED = 0x01 ∧
    FFS_INODE_F_DELETED &&& FFS_INODE_F_DUMMY = 0 ∧
    FFS_INODE_F_DELETED &&& FFS_INODE_F_DIRECTORY = 0 ∧
    FFS_INODE_F_DELETED &&& FFS_INODE_F_TEST = 0 ∧
    FFS_INODE_F_DUMMY &&& FFS_INODE_F_DIRECTORY = 0 ∧
    FFS_INODE_F_DUMMY &&& FFS_INODE_F_TEST = 0 ∧
    FFS_INODE_F_DIRECTORY &&& FFS_INODE_F_TEST = 0 := by
  decide

/-- C2: for every file handle and every sequence of write calls
followed by seek(0) and read(len), the bytes returned by the read equal
the concatenation of the bytes written (here `len` is at least the file
length, so the truncation to file length returns the whole
concatenation).  The handle starts freshly opened on an empty file, so
every write lands at the file tail. -/
theorem ffs_c2_write_read_roundtrip (ws : List (List Nat)) (len : Nat)
    (h : ws.flatten.length ≤ len) :
    ffs_file_read
        (ffs_file_seek (ws.foldl ffs_write_to_file ffs_file_open_new) 0) len
      = ws.flatten := by
  show ffs_inode_read
      (ws.foldl ffs_write_to_file ffs_file_open_new).ff_blocks 0 len
    = ws.flatten
  rw [ffs_inode_read_zero, writes_fold_data]
  have h0 : blockListData ffs_file_open_new.ff_blocks = [] := rfl
  rw [h0, List.nil_append]
  exact List.take_of_length_le h

/-- C2 witness: writing [1,2,3] then [4,5] to a fresh file, seeking to
0 and reading 10 bytes returns [1,2,3,4,5]. -/
theorem ffs_c2_write_read_roundtrip_witness :
    ([[1, 2, 3], [4, 5]] : List (List Nat)).flatten.length ≤ 10 ∧
    ffs_file_read
        (ffs_file_seek
          (([[1, 2, 3], [4, 5]] : List (List Nat)).foldl ffs_write_to_file
            ffs_file_open_new) 0) 10
      = ([[1, 2, 3], [4, 5]] : List (List Nat)).flatten :=
  ⟨by decide, ffs_c2_write_read_roundtrip [[1, 2, 3], [4, 5]] 10 (by decide)⟩

/-- C7: object ids are 32-bit with sentinel 0xFFFFFFFF meaning "none"
(the parent of the root inode) and the scratch area is the 16-bit
sentinel area id 0xFFFF; an allocated id is below the 32-bit
`ffs_next_id` (spec invariant 7), hence never the sentinel, and a
normal area id indexes the area table of at most `FFS_MAX_AREAS`
entries, hence never equals the scratch sentinel. -/
theorem ffs_c7_sentinels (id next_id area_id num_areas : Nat)
    (hid : id < next_id) (hnext : next_id < 2 ^ 32)
    (ha : area_id < num_areas) (hn : num_areas ≤ FFS_MAX_AREAS) :
    FFS_ID_NONE = 0xffffffff ∧ FFS_AREA_ID_SCRATCH = 0xffff ∧
    FFS_ID_NONE = 2 ^ 32 - 1 ∧ FFS_AREA_ID_SCRATCH = 2 ^ 16 - 1 ∧
    id ≠ FFS_ID_NONE ∧ area_id ≠ FFS_AREA_ID_SCRATCH := by
  have h32 : (2 : Nat) ^ 32 = 4294967296 := by norm_num
  refine ⟨rfl, rfl, by norm_num [FFS_ID_NONE],
    by norm_num [FFS_AREA_ID_SCRATCH], ?_, ?_⟩
  · unfold FFS_ID_NONE
    omega
  · unfold FFS_AREA_ID_SCRATCH
    unfold FFS_MAX_AREAS at hn
    omega

/-- C7 witness: the sentinel theorem instantiated at id 0 with next id
1, and area id 0 in a one-area layout. -/
theorem ffs_c7_sentinels_witness :
    (0 : Nat) < 1 ∧ (1 : Nat) < 2 ^ 32 ∧ (0 : Nat) < 1 ∧
    (1 : Nat) ≤ FFS_MAX_AREAS ∧
    (FFS_ID_NONE = 0xffffffff ∧ FFS_AREA_ID_SCRATCH = 0xffff ∧
      FFS_ID_NONE = 2 ^ 32 - 1 ∧ FFS_AREA_ID_SCRATCH = 2 ^ 16 - 1 ∧
      (0 : Nat) ≠ FFS_ID_NONE ∧ (0 : Nat) ≠ FFS_AREA_ID_SCRATCH) :=
  ⟨by decide, by norm_num, by decide, by decide,
    ffs_c7_sentinels 0 1 0 1 (by decide) (by norm_num) (by decide) (by decide)⟩

/-- C8: an in-RAM inode's file payload (block list) and directory
payload (child list) are mutually exclusive — the payload union holds
exactly one of the two, discriminated by the DIRECTORY flag — and the
operations preserve the discriminator: inserting a block, adding a
child and creating a fresh inode all keep the payload side agreeing with
the flag, so a block list is never attached to a DIRECTORY inode and a
child list never to a non-DIRECTORY one. -/
theorem ffs_c8_payload_union (i p : FfsInode) (b : FfsBlock)
    (childId parentId : Nat) (fn : List Nat) (is_dir : Bool)
    (hi : inodeWellFormed i) (hp : inodeWellFormed p) :
    inodeWellFormed (ffs_inode_insert_block i b) ∧
    inodeWellFormed (ffs_inode_add_child p childId) ∧
    inodeWellFormed (ffs_file_new_inode parentId fn is_dir) ∧
    (inodeIsDirectory i = true → ∀ bs, i.fi_payload ≠ .fileBlocks bs) ∧
    (inodeIsDirectory i = false → ∀ cs, i.fi_payload ≠ .dirChildren cs) := by
  refine ⟨?_, ?_, ?_, ?_, ?_⟩
  · cases hpay : i.fi_payload with
    | fileBlocks bs =>
        unfold inodeWellFormed inodeIsDirectory payloadIsDir at hi ⊢
        rw [hpay] at hi
        simp [ffs_inode_insert_block, hpay] at hi ⊢
        exact hi
    | dirChildren cs =>
        unfold ffs_inode_insert_block
        rw [hpay]
        exact hi
  · cases hpay : p.fi_payload with
    | fileBlocks bs =>
        unfold ffs_inode_add_child
        rw [hpay]
        exact hp
    | dirChildren cs =>
        unfold inodeWellFormed inodeIsDirectory payloadIsDir at hp ⊢
        rw [hpay] at hp
        simp [ffs_inode_add_child, hpay] at hp ⊢
        exact hp
  · cases is_dir with
    | true =>
        unfold inodeWellFormed inodeIsDirectory payloadIsDir ffs_file_new_inode
        simp [FFS_INODE_F_DIRECTORY]
    | false =>
        unfold inodeWellFormed inodeIsDirectory payloadIsDir ffs_file_new_inode
        simp
  · intro hd bs hcontra
    unfold inodeWellFormed at hi
    rw [hcontra, hd] at hi
    simp [payloadIsDir] at hi
  · intro hd cs hcontra
    unfold inodeWellFormed at hi
    rw [hcontra, hd] at hi
    simp [payloadIsDir] at hi

/-- C8 witness: the preservation theorem instantiated at a concrete
file inode receiving a block, a concrete directory inode receiving a
child, and a fresh directory creation. -/
theorem ffs_c8_payload_union_witness :
    inodeWellFormed
      (ffs_inode_insert_block (⟨0, 1, 1, [97], 0, 0, .fileBlocks []⟩ : FfsInode)
        ⟨0, 0, [1, 2]⟩) ∧
    inodeWellFormed
      (ffs_inode_add_child (⟨4, 1, 1, [100], 0, 0, .dirChildren []⟩ : FfsInode)
        9) ∧
    inodeWellFormed (ffs_file_new_inode 0 [120] true) :=
  ⟨(ffs_c8_payload_union ⟨0, 1, 1, [97], 0, 0, .fileBlocks []⟩
      ⟨4, 1, 1, [100], 0, 0, .dirChildren []⟩ ⟨0, 0, [1, 2]⟩ 9 0 [120] true
      (by decide) (by decide)).1,
    (ffs_c8_payload_union ⟨0, 1, 1, [97], 0, 0, .fileBlocks []⟩
      ⟨4, 1, 1, [100], 0, 0, .dirChildren []⟩ ⟨0, 0, [1, 2]⟩ 9 0 [120] true
      (by decide) (by decide)).2.1,
    (ffs_c8_payload_union ⟨0, 1, 1, [97], 0, 0, .fileBlocks []⟩
      ⟨4, 1, 1, [100], 0, 0, .dirChildren []⟩ ⟨0, 0, [1, 2]⟩ 9 0 [120] true
      (by decide) (by decide)).2.2.1⟩

set_option maxRecDepth 4096 in
/-- C9: the inode reference count is an 8-bit counter: below 255 an
increment adds one, so at most 255 simultaneous references (open
handles plus the allocation reference) are tracked; incrementing at 255
— the 256th increment starting from zero — wraps the count to zero,
and the counter never exceeds 255. -/
theorem ffs_c9_refcnt_wrap (r : Nat) (h : r < 255) :
    ffs_inode_inc_refcnt r = r + 1 ∧
    ffs_inode_inc_refcnt 255 = 0 ∧
    Nat.iterate ffs_inode_inc_refcnt 256 0 = 0 ∧
    ∀ s : Nat, ffs_inode_inc_refcnt s ≤ 255 := by
  refine ⟨?_, by decide, by decide, ?_⟩
  · unfold ffs_inode_inc_refcnt
    omega
  · intro s
    unfold ffs_inode_inc_refcnt
    omega

set_option maxRecDepth 4096 in
/-- C9 witness: the refcount theorem instantiated at count 3. -/
theorem ffs_c9_refcnt_wrap_witness :
    (3 : Nat) < 255 ∧ ffs_inode_inc_refcnt 3 = 3 + 1 ∧
    ffs_inode_inc_refcnt 255 = 0 ∧
    Nat.iterate ffs_inode_inc_refcnt 256 0 = 0 :=
  ⟨by decide, (ffs_c9_refcnt_wrap 3 (by decide)).1,
    (ffs_c9_refcnt_wrap 3 (by decide)).2.1,
    (ffs_c9_refcnt_wrap 3 (by decide)).2.2.1⟩

/-- C10: the in-RAM inode stores its filename in a fixed 16-byte buffer
(`FFS_SHORT_FILENAME_LEN`), while the disk record's filename_len field
is one byte (stored as filename_len mod 256, so able to encode up to
255): a disk inode whose filename_len exceeds 16 is rejected when
loaded, and every successfully loaded inode has filename_len at most 16
and a filename fitting the buffer. -/
theorem ffs_c10_filename_bound (d e : FfsDiskInode) (fn fe : List Nat)
    (i : FfsInode) (hd : FFS_SHORT_FILENAME_LEN < d.fdi_filename_len)
    (he : ffs_inode_from_disk e fe = some i) :
    FFS_SHORT_FILENAME_LEN = 16 ∧
    sliceAt (encodeDiskInode d fn) 18 1 = [d.fdi_filename_len % 256] ∧
    ffs_inode_from_disk d fn = none ∧
    i.fi_filename_len ≤ FFS_SHORT_FILENAME_LEN ∧
    i.fi_filename.length ≤ FFS_SHORT_FILENAME_LEN := by
  have hfacts : i.fi_filename_len ≤ FFS_SHORT_FILENAME_LEN ∧
      i.fi_filename.length ≤ FFS_SHORT_FILENAME_LEN := by
    unfold ffs_inode_from_disk at he
    by_cases hle : e.fdi_filename_len ≤ FFS_SHORT_FILENAME_LEN
    · rw [if_pos hle] at he
      injection he with hX
      subst hX
      constructor
      · exact hle
      · show (fe.take e.fdi_filename_len).length ≤ FFS_SHORT_FILENAME_LEN
        rw [List.length_take]
        exact le_trans (Nat.min_le_left _ _) hle
    · rw [if_neg hle] at he
      exact Option.noConfusion he
  refine ⟨rfl, ?_, ?_, hfacts.1, hfacts.2⟩
  · rw [fdiSlice_filename_len]
    rfl
  · unfold ffs_inode_from_disk
    rw [if_neg (by omega)]

/-- C10 witness: a disk inode with filename_len 17 is rejected; one
with filename_len 3 loads into an inode whose filename fits the
16-byte buffer. -/
theorem ffs_c10_filename_bound_witness :
    FFS_SHORT_FILENAME_LEN = 16 ∧
    sliceAt (encodeDiskInode ⟨0x925f8bc0, 1, 0, 0, 0, 17, 0⟩ []) 18 1
      = [17 % 256] ∧
    ffs_inode_from_disk ⟨0x925f8bc0, 1, 0, 0, 0, 17, 0⟩ [] = none ∧
    (⟨0, 1, 3, [97, 98, 99], 0, 0, .fileBlocks []⟩ : FfsInode).fi_filename_len
      ≤ FFS_SHORT_FILENAME_LEN ∧
    (⟨0, 1, 3, [97, 98, 99], 0, 0,
        .fileBlocks []⟩ : FfsInode).fi_filename.length
      ≤ FFS_SHORT_FILENAME_LEN :=
  ffs_c10_filename_bound ⟨0x925f8bc0, 1, 0, 0, 0, 17, 0⟩
    ⟨0x925f8bc0, 2, 0, 0, 0, 3, 0⟩ [] [97, 98, 99, 100]
    ⟨0, 1, 3, [97, 98, 99], 0, 0, .fileBlocks []⟩ (by decide) (by decide)
